import Mathlib

/-!
Verification of the js-currency-converter module
(src/src/js-currency-converter.js) against its specification.

The module is a rate-resolution cache: `getRate` serves a cached rate when
fresh, otherwise fetches from the remote API, deduplicates concurrent
fetches per pair key, and falls back to a stale cached value when the
remote fetch fails.  We embed the module's pure logic shallowly:

* timestamps and durations are `Int` milliseconds (JS `Date.getTime()`
  arithmetic is exact integer arithmetic in the ranges involved);
* the mutable objects `CACHED_RATES` and `CONVERSIONS_IN_PROGRESS` become
  association lists passed explicitly;
* the asynchronous remote call is a parameter: a `FetchOutcome` describing
  how the jQuery ajax promise settles;
* jQuery deferred semantics used by the code: callbacks attached with
  `.done`/`.fail`/`.always` fire synchronously, in attachment order, when
  the deferred settles, and `.always` registers on both lists.
-/

namespace CurrencyConverter

/-- A cached rate record: `{ value: ..., date: new Date() }` as created by
`cacheRate`.  The `date` is the creation instant in milliseconds. -/
structure RateRecord where
  value : Int
  date : Int
deriving Repr, DecidableEq

/-- The in-memory cache `CACHED_RATES`: a JS object mapping query strings to
rate records, embedded as an association list with unique keys (first match
wins on lookup, in-place replacement on write). -/
abbrev Cache := List (String × RateRecord)

/-- JS property read `CACHED_RATES[q]`: `none` models `undefined`. -/
def lookupRate : Cache → String → Option RateRecord
  | [], _ => none
  | (k, r) :: rest, q => if k = q then some r else lookupRate rest q

/-- JS property write `CACHED_RATES[q] = r`: replace an existing binding or
append a new one. -/
def setRate : Cache → String → RateRecord → Cache
  | [], q, r => [(q, r)]
  | (k, r0) :: rest, q, r =>
      if k = q then (q, r) :: rest else (k, r0) :: setRate rest q r

/-- Source `toQuery`: `(fromCurrency || '') + '_' + (toCurrency || '')`.
On string arguments `s || ''` is the identity (it replaces only the falsy
empty string by the empty string), so the key is the plain join. -/
def toQuery (fromCurrency toCurrency : String) : String :=
  fromCurrency ++ "_" ++ toCurrency

/-- Source `isRateCached`: `isObject(CACHED_RATES[queryCode])`.  A stored
record is always an object and an absent key reads `undefined`, which is not
an object. -/
def isRateCached (c : Cache) (queryCode : String) : Bool :=
  (lookupRate c queryCode).isSome

/-- Source `isRateExpired`: `(new Date().getTime() - compareDate.getTime())
> SETTINGS.RATES_VALIDITY_HOURS`.  `now` is the evaluation instant and
`validity` the configured validity period; the string-timestamp
normalisation for records loaded from storage is the identity here because
record dates are already instants in the model. -/
def isRateExpired (now validity : Int) (rate : RateRecord) : Bool :=
  now - rate.date > validity

/-- Source `isRateValid`: a record exists for the key and it is not
expired. -/
def isRateValid (c : Cache) (queryCode : String) (now validity : Int) : Bool :=
  (isRateCached c queryCode) &&
    (match lookupRate c queryCode with
     | some r => !(isRateExpired now validity r)
     | none => false)

/-- How the jQuery ajax promise of `fetchQuote` settles: resolution with the
rate extracted from the API response, or rejection with an error. -/
inductive FetchOutcome where
  | success (rate : Int)
  | failure (err : String)
deriving Repr, DecidableEq

/-- How the deferred returned by `getRate` settles: resolution with the
`{expired, rate}` object built by `resolveRate`, or rejection with the
propagated fetch error. -/
inductive GetRateResult where
  | resolved (expired : Bool) (rate : Int)
  | rejected (err : String)
deriving Repr, DecidableEq

/-- The fetch branch of `getRate` (`fetchOnSuccess` / `oldRateFallback`):
on fetch success resolve `{expired: false, rate}`; on fetch failure resolve
the stale cached value with `expired: true` when `isRateCached`, otherwise
reject with the fetch error. -/
def getRateFetch (c : Cache) (query : String) (fetch : FetchOutcome) :
    GetRateResult :=
  match fetch with
  | .success rate => .resolved false rate
  | .failure err =>
      match lookupRate c query with
      | some r => .resolved true r.value
      | none => .rejected err

/-- Source `getRate`, as a function of the cache, the evaluation instant,
the validity setting and the outcome the remote fetch would have.  Returns
the settlement of the deferred together with a flag recording whether the
remote source was invoked (the `else` branch calling `fetchQuote` was
taken). -/
def getRate (c : Cache) (now validity : Int) (fetch : FetchOutcome)
    (fromCurrency toCurrency : String) : GetRateResult × Bool :=
  let query := toQuery fromCurrency toCurrency
  if isRateValid c query now validity then
    match lookupRate c query with
    | some r => (.resolved false r.value, false)
    | none => (.rejected "unreachable: isRateValid implies a record", false)
  else
    (getRateFetch c query fetch, true)

/-- How the deferred returned by `convertAmount` settles.  `onSuccess`
receives the `{expired, rate}` object from `getRate`, adds
`data.value = amount * data.rate` and resolves the augmented object;
`onError` propagates the rejection. -/
inductive ConvertResult where
  | resolved (value : Int) (rate : Int) (expired : Bool)
  | rejected (err : String)
deriving Repr, DecidableEq

/-- Source `convertAmount`: runs `getRate(fromCurrency, toCurrency)` and
settles its own deferred through `onSuccess` / `onError`. -/
def convertAmount (amount : Int) (c : Cache) (now validity : Int)
    (fetch : FetchOutcome) (fromCurrency toCurrency : String) :
    ConvertResult :=
  match (getRate c now validity fetch fromCurrency toCurrency).1 with
  | .resolved expired rate => .resolved (amount * rate) rate expired
  | .rejected err => .rejected err

/-- The observable environment of `cacheRate`: the in-memory cache, the
local-storage slot under `LOCAL_STORAGE_VARIABLE_NAME` (the value
`JSON.stringify`-mirrored there, `none` when never written), whether local
storage is available, and the `console.error` log. -/
structure Env where
  cache : Cache
  store : Option Cache
  storeAvailable : Bool
  errorLog : List String
deriving Repr, DecidableEq

/-- Source `saveToLocalStorage`: writes the value when local storage is
available, otherwise logs an error; it never throws in either case. -/
def saveToLocalStorage (e : Env) (value : Cache) : Env :=
  if e.storeAvailable then
    { e with store := some value }
  else
    { e with errorLog := e.errorLog ++
        ["Caching rates to local storage failed. Local storage not available"] }

/-- Source `cacheRate`: stores `{value, date: new Date()}` under the key,
then mirrors the whole `CACHED_RATES` object to local storage when
`CACHE_TO_LOCAL_STORAGE` is set. -/
def cacheRate (e : Env) (cacheToLocalStorage : Bool) (now : Int)
    (rateName : String) (value : Int) : Env :=
  let e1 := { e with cache := setRate e.cache rateName ⟨value, now⟩ }
  if cacheToLocalStorage then saveToLocalStorage e1 e1.cache else e1

/-- A JavaScript value, as far as `config` / `isObject` discriminate:
`typeof x === 'object'` holds exactly for `null`, plain objects and arrays,
and `isObject` additionally excludes `null`. -/
inductive JSValue where
  | null
  | undefined
  | boolean (b : Bool)
  | number (n : Int)
  | string (s : String)
  | object (fields : List (String × JSValue))
deriving Repr, BEq

/-- Source `isObject`: `value !== null && typeof value === 'object'`. -/
def isObject : JSValue → Bool
  | .object _ => true
  | _ => false

/-- The settings object, embedded as an association list of properties
(`RATES_VALIDITY_HOURS`, `CACHE_TO_LOCAL_STORAGE`, ...). -/
abbrev SettingsMap := List (String × JSValue)

/-- JS property read on the settings object. -/
def getField : SettingsMap → String → Option JSValue
  | [], _ => none
  | (k, v) :: rest, q => if k = q then some v else getField rest q

/-- JS property write on the settings object: replace an existing binding
or append a new one (JS insertion order). -/
def setField : SettingsMap → String → JSValue → SettingsMap
  | [], q, v => [(q, v)]
  | (k, v0) :: rest, q, v =>
      if k = q then (q, v) :: rest else (k, v0) :: setField rest q v

/-- jQuery `$.extend(target, source)`: copies each own property of the
source onto the target in order, skipping properties whose value is
`undefined`. -/
def extend (target : SettingsMap) : List (String × JSValue) → SettingsMap
  | [] => target
  | (k, v) :: rest =>
      extend (match v with | .undefined => target | _ => setField target k v)
        rest

/-- The property list of an object value; only meaningful under
`isObject`. -/
def objectFields : JSValue → List (String × JSValue)
  | .object fields => fields
  | _ => []

/-- Source `config`: `if (isObject(options)) SETTINGS = $.extend(SETTINGS,
options)` — any non-object argument leaves the settings untouched and
raises nothing. -/
def config (settings : SettingsMap) (options : JSValue) : SettingsMap :=
  if isObject options then extend settings (objectFields options)
  else settings

/-- One synchronous step observed during the completion of the ajax call
inside `fetchQuote` for key `query`: the cache write performed by
`onSuccess`, the settlement of `deferred` (which synchronously settles
every downstream caller attached to `deferred.promise()`), and the
`setConversionInProgress(query, null)` performed by `onAlways`. -/
inductive CompletionEvent where
  | cacheWrite (query : String) (value : Int)
  | settleDownstream (query : String)
  | clearInFlight (query : String)
deriving Repr, BEq, DecidableEq

/-- The ordered synchronous events when the ajax promise of `fetchQuote`
settles.  jQuery fires the callbacks of a settled deferred in attachment
order and `.always` attaches to both the done and the fail list, so the
attachment order `.done(onSuccess).fail(onError).always(onAlways)` yields:
on success `onSuccess` (cache write, then `deferred.resolve`, settling all
downstream callers) and then `onAlways`; on failure `onError`
(`deferred.reject`) and then `onAlways`. -/
def fetchQuoteCompletionTrace (query : String) (outcome : FetchOutcome) :
    List CompletionEvent :=
  match outcome with
  | .success rate =>
      [.cacheWrite query rate, .settleDownstream query,
       .clearInFlight query]
  | .failure _ =>
      [.settleDownstream query, .clearInFlight query]

/-- The set of keys whose `CONVERSIONS_IN_PROGRESS` entry is a (truthy)
promise, run forward through a completion trace:
`setConversionInProgress(query, null)` makes the entry falsy. -/
def runTrace (inFlight : List String) : List CompletionEvent → List String
  | [] => inFlight
  | .clearInFlight q :: rest =>
      runTrace (inFlight.filter (fun k => decide (k ≠ q))) rest
  | _ :: rest => runTrace inFlight rest

/-- Whether a `fetchQuote` call arriving with the given in-flight keys
starts a new remote fetch: the source returns the in-progress promise when
`getConversionInProgress(query)` is truthy and calls `$.get` otherwise. -/
def startsNewFetch (inFlight : List String) (query : String) : Bool :=
  !(inFlight.contains query)

/-- State of a simulation of concurrent callers arriving before any fetch
completes.  `inFlight` is `CONVERSIONS_IN_PROGRESS` with promises named by
numeric identities, `nextId` names the next deferred `fetchQuote` would
create, `remoteCalls` counts `$.get` invocations, and `joined` records, per
caller in arrival order, the identity of the promise whose settlement that
caller's `getRate` handlers observe. -/
structure ArrivalSim where
  inFlight : List (String × Nat)
  nextId : Nat
  remoteCalls : Nat
  joined : List Nat
deriving Repr, DecidableEq

/-- Read of `CONVERSIONS_IN_PROGRESS[query]` in the identity-tracking
model. -/
def lookupInFlight : List (String × Nat) → String → Option Nat
  | [], _ => none
  | (k, pid) :: rest, q => if k = q then some pid else lookupInFlight rest q

/-- One `fetchQuote` arrival: return the in-progress promise when one
exists, otherwise invoke `$.get` (one remote call), create a fresh deferred
and register its promise under the key. -/
def fetchQuoteArrival (st : ArrivalSim) (query : String) : ArrivalSim :=
  match lookupInFlight st.inFlight query with
  | some pid => { st with joined := st.joined ++ [pid] }
  | none =>
      { inFlight := (query, st.nextId) :: st.inFlight
        nextId := st.nextId + 1
        remoteCalls := st.remoteCalls + 1
        joined := st.joined ++ [st.nextId] }

/-- One `getRate` arrival: a caller holding a valid cached rate resolves
synchronously without touching the registry; every other caller goes
through `fetchQuote`. -/
def getRateArrival (c : Cache) (now validity : Int) (st : ArrivalSim)
    (fromCurrency toCurrency : String) : ArrivalSim :=
  if isRateValid c (toQuery fromCurrency toCurrency) now validity then st
  else fetchQuoteArrival st (toQuery fromCurrency toCurrency)

/-- `n` concurrent `getRate` callers for the same pair arriving while no
fetch has yet completed (the cache does not change between arrivals). -/
def getRateConcurrent (c : Cache) (now validity : Int)
    (fromCurrency toCurrency : String) (st : ArrivalSim) : Nat → ArrivalSim
  | 0 => st
  | n + 1 =>
      getRateConcurrent c now validity fromCurrency toCurrency
        (getRateArrival c now validity st fromCurrency toCurrency) n

/-- The result a caller attached to promise `pid` observes once every
promise settles with `settlement pid`: the caller's `fetchOnSuccess` /
`oldRateFallback` handlers applied to that settlement, with `c` the cache
at settlement time. -/
def settleAll (settlement : Nat → FetchOutcome) (c : Cache) (query : String)
    (joined : List Nat) : List GetRateResult :=
  joined.map (fun pid => getRateFetch c query (settlement pid))

/-! Helper lemmas shared by the claim theorems. -/

theorem lookupRate_setRate_self (c : Cache) (q : String) (r : RateRecord) :
    lookupRate (setRate c q r) q = some r := by
  induction c with
  | nil => simp [setRate, lookupRate]
  | cons p rest ih =>
      by_cases h : p.1 = q
      · simp [setRate, h, lookupRate]
      · simp [setRate, h, lookupRate, ih]

theorem isRateValid_of_none (c : Cache) (q : String) (now validity : Int)
    (h : lookupRate c q = none) : isRateValid c q now validity = false := by
  simp [isRateValid, isRateCached, h]

/-! Claim theorems. -/

/-- C9: the pair key is computed deterministically as the two currency
codes joined by an underscore, and two empty codes give exactly "_". -/
theorem toQuery_join_underscore :
    (∀ fromCurrency toCurrency : String,
      toQuery fromCurrency toCurrency = fromCurrency ++ "_" ++ toCurrency)
    ∧ toQuery "" "" = "_" :=
  ⟨fun _ _ => rfl, rfl⟩

/-- C10: the key derivation is not injective — the distinct pairs
("A", "B_C") and ("A_B", "C") produce the same key, so every key-indexed
operation (cache lookup and in-flight lookup) treats them as one entry. -/
theorem toQuery_not_injective :
    toQuery "A" "B_C" = toQuery "A_B" "C"
    ∧ (("A" : String) == "A_B") = false
    ∧ (∀ c : Cache,
        lookupRate c (toQuery "A" "B_C") = lookupRate c (toQuery "A_B" "C"))
    ∧ (∀ fl : List (String × Nat),
        lookupInFlight fl (toQuery "A" "B_C")
          = lookupInFlight fl (toQuery "A_B" "C")) := by
  refine ⟨by decide, by decide, fun c => ?_, fun fl => ?_⟩
  · rw [show toQuery "A" "B_C" = toQuery "A_B" "C" from by decide]
  · rw [show toQuery "A" "B_C" = toQuery "A_B" "C" from by decide]

/-- C5: freshness holds iff `now - record.date <= validity` with the
boundary inclusive: a record whose age equals the validity period exactly
is not expired.  Consistency across repeated evaluation at one instant is
immediate because `isRateExpired` is a pure function of the instant and the
record. -/
theorem freshness_boundary_inclusive (c : Cache) (q : String)
    (now validity : Int) :
    (isRateValid c q now validity = true ↔
      ∃ r, lookupRate c q = some r ∧ now - r.date ≤ validity)
    ∧ (∀ r : RateRecord, now - r.date = validity →
        isRateExpired now validity r = false) := by
  constructor
  · cases h : lookupRate c q with
    | none => simp [isRateValid, isRateCached, h]
    | some r => simp [isRateValid, isRateCached, isRateExpired, h, not_lt]
  · intro r h
    simp [isRateExpired, h]

/-- C5 witness: a record of age exactly the validity period counts as
valid (fresh). -/
theorem freshness_boundary_inclusive_witness :
    (isRateValid [("USD_EUR", ⟨5, 0⟩)] "USD_EUR" 100 100 = true ↔
      ∃ r, lookupRate [("USD_EUR", ⟨5, 0⟩)] "USD_EUR" = some r
        ∧ (100 : Int) - r.date ≤ 100)
    ∧ (∀ r : RateRecord, (100 : Int) - r.date = 100 →
        isRateExpired 100 100 r = false) :=
  freshness_boundary_inclusive [("USD_EUR", ⟨5, 0⟩)] "USD_EUR" 100 100

/-- C4: a cached record whose age is strictly within the validity period
makes `getRate` resolve with that value and `expired: false`, with no
remote invocation. -/
theorem getRate_fresh_hit (c : Cache) (now validity : Int)
    (fetch : FetchOutcome) (fromCurrency toCurrency : String) (r : RateRecord)
    (hrec : lookupRate c (toQuery fromCurrency toCurrency) = some r)
    (hage : now - r.date < validity) :
    getRate c now validity fetch fromCurrency toCurrency
      = (.resolved false r.value, false) := by
  have hvalid : isRateValid c (toQuery fromCurrency toCurrency) now validity
      = true := by
    simp [isRateValid, isRateCached, hrec, isRateExpired]
    omega
  simp [getRate, hvalid, hrec]

/-- C4 witness: a one-entry cache aged 1 with validity 5 is served from the
cache even while the remote source would fail. -/
theorem getRate_fresh_hit_witness :
    getRate [("USD_EUR", ⟨7, 10⟩)] 11 5 (.failure "down") "USD" "EUR"
      = (.resolved false 7, false) :=
  getRate_fresh_hit [("USD_EUR", ⟨7, 10⟩)] 11 5 (.failure "down") "USD" "EUR"
    ⟨7, 10⟩ (by decide) (by decide)

/-- C1: when `getRate` did invoke the remote source and the fetch failed,
it resolves with the cached value and `expired: true` whenever any record
exists for the key, regardless of age, and rejects with the underlying
error exactly when no record exists. -/
theorem getRate_failure_fallback (c : Cache) (now validity : Int)
    (err : String) (fromCurrency toCurrency : String)
    (hfetched : (getRate c now validity (.failure err) fromCurrency
        toCurrency).2 = true) :
    (∀ r, lookupRate c (toQuery fromCurrency toCurrency) = some r →
      (getRate c now validity (.failure err) fromCurrency toCurrency).1
        = .resolved true r.value)
    ∧ (lookupRate c (toQuery fromCurrency toCurrency) = none →
      (getRate c now validity (.failure err) fromCurrency toCurrency).1
        = .rejected err) := by
  cases hv : isRateValid c (toQuery fromCurrency toCurrency) now validity with
  | true =>
      simp [getRate, hv] at hfetched
      cases h : lookupRate c (toQuery fromCurrency toCurrency) <;>
        simp [h] at hfetched
  | false =>
      constructor
      · intro r hr
        simp [getRate, hv, getRateFetch, hr]
      · intro hr
        simp [getRate, hv, getRateFetch, hr]

/-- C1 witness: with a stale record present the failure is converted into a
stale success, exercised at a cache whose record is long past validity. -/
theorem getRate_failure_fallback_witness :
    (getRate [("USD_EUR", ⟨7, 0⟩)] 1000 5 (.failure "down") "USD" "EUR").1
      = .resolved true 7 :=
  (getRate_failure_fallback [("USD_EUR", ⟨7, 0⟩)] 1000 5 "down" "USD" "EUR"
    (by decide)).1 ⟨7, 0⟩ (by decide)

/-- C6: `convertAmount` resolves with `value = amount * rate` where the
rate and expired flag are exactly those of `getRate` for the pair, and it
propagates a `getRate` rejection unchanged. -/
theorem convertAmount_multiplies (amount : Int) (c : Cache)
    (now validity : Int) (fetch : FetchOutcome)
    (fromCurrency toCurrency : String) :
    (∀ expired rate,
      (getRate c now validity fetch fromCurrency toCurrency).1
          = .resolved expired rate →
        convertAmount amount c now validity fetch fromCurrency toCurrency
          = .resolved (amount * rate) rate expired)
    ∧ (∀ err,
      (getRate c now validity fetch fromCurrency toCurrency).1
          = .rejected err →
        convertAmount amount c now validity fetch fromCurrency toCurrency
          = .rejected err) := by
  constructor
  · intro expired rate h
    simp [convertAmount, h]
  · intro err h
    simp [convertAmount, h]

/-- C6 witness: converting 3 units at a fetched rate of 5 yields value 15
with the rate and flag passed through. -/
theorem convertAmount_multiplies_witness :
    convertAmount 3 [] 0 0 (.success 5) "USD" "EUR" = .resolved 15 5 false :=
  (convertAmount_multiplies 3 [] 0 0 (.success 5) "USD" "EUR").1 false 5
    (by decide)

/-- C7: `cacheRate` stores a record timestamped now under the key; when
persistence is enabled and the store is available it mirrors the entire
cache there; when the store is unavailable the failure only appends a log
line; and the resulting in-memory cache never depends on store
availability. -/
theorem cacheRate_mirrors_and_shields (e : Env) (cacheToLocalStorage : Bool)
    (now : Int) (rateName : String) (value : Int) :
    lookupRate (cacheRate e cacheToLocalStorage now rateName value).cache
        rateName = some ⟨value, now⟩
    ∧ (∀ b : Bool,
        (cacheRate { e with storeAvailable := b } cacheToLocalStorage now
            rateName value).cache
          = (cacheRate e cacheToLocalStorage now rateName value).cache)
    ∧ (cacheToLocalStorage = true → e.storeAvailable = true →
        (cacheRate e cacheToLocalStorage now rateName value).store
          = some (cacheRate e cacheToLocalStorage now rateName value).cache)
    ∧ (cacheToLocalStorage = true → e.storeAvailable = false →
        (cacheRate e cacheToLocalStorage now rateName value).store = e.store
        ∧ (cacheRate e cacheToLocalStorage now rateName value).errorLog
          = e.errorLog ++
            ["Caching rates to local storage failed. Local storage not available"]) := by
  refine ⟨?_, fun b => ?_, fun h1 h2 => ?_, fun h1 h2 => ?_⟩
  · cases cacheToLocalStorage <;>
      cases he : e.storeAvailable <;>
      simp [cacheRate, saveToLocalStorage, he, lookupRate_setRate_self]
  · cases cacheToLocalStorage <;>
      cases b <;>
      cases he : e.storeAvailable <;>
      simp [cacheRate, saveToLocalStorage, he]
  · simp [cacheRate, saveToLocalStorage, h1, h2]
  · simp [cacheRate, saveToLocalStorage, h1, h2]

/-- C7 witness: with persistence enabled but local storage unavailable, the
write lands in the cache, the store slot is untouched and the error is
logged. -/
theorem cacheRate_mirrors_and_shields_witness :
    lookupRate (cacheRate ⟨[], none, false, []⟩ true 42 "USD_EUR" 9).cache
        "USD_EUR" = some ⟨9, 42⟩
    ∧ (cacheRate ⟨[], none, false, []⟩ true 42 "USD_EUR" 9).store = none
    ∧ (cacheRate ⟨[], none, false, []⟩ true 42 "USD_EUR" 9).errorLog
      = [] ++
        ["Caching rates to local storage failed. Local storage not available"] :=
  ⟨(cacheRate_mirrors_and_shields ⟨[], none, false, []⟩ true 42 "USD_EUR" 9).1,
   ((cacheRate_mirrors_and_shields ⟨[], none, false, []⟩ true 42 "USD_EUR"
      9).2.2.2 rfl rfl).1,
   ((cacheRate_mirrors_and_shields ⟨[], none, false, []⟩ true 42 "USD_EUR"
      9).2.2.2 rfl rfl).2⟩

theorem getField_setField_self (s : SettingsMap) (k : String) (v : JSValue) :
    getField (setField s k v) k = some v := by
  induction s with
  | nil => simp [setField, getField]
  | cons p rest ih =>
      by_cases h : p.1 = k
      · simp [setField, h, getField]
      · simp [setField, h, getField, ih]

/-- C8: `config` merges an object argument field-by-field via `$.extend`
into the active settings (a defined field really lands there), and every
non-object argument, null and the primitives included, leaves the settings
entirely unchanged without raising. -/
theorem config_merges_objects_ignores_rest (settings : SettingsMap) :
    (∀ options : JSValue, isObject options = false →
      config settings options = settings)
    ∧ (∀ fields, config settings (.object fields) = extend settings fields)
    ∧ (∀ k v, v ≠ JSValue.undefined →
      getField (config settings (.object [(k, v)])) k = some v) := by
  refine ⟨fun options h => ?_, fun fields => ?_, fun k v hv => ?_⟩
  · simp [config, h]
  · simp [config, isObject, objectFields]
  · cases v with
    | undefined => exact absurd rfl hv
    | null => simp [config, isObject, objectFields, extend, getField_setField_self]
    | boolean b => simp [config, isObject, objectFields, extend, getField_setField_self]
    | number n => simp [config, isObject, objectFields, extend, getField_setField_self]
    | string s => simp [config, isObject, objectFields, extend, getField_setField_self]
    | object f => simp [config, isObject, objectFields, extend, getField_setField_self]

/-- C8 witness: a null argument leaves concrete settings untouched and an
object argument overrides a field in place. -/
theorem config_merges_objects_ignores_rest_witness :
    config [("CACHE_TO_LOCAL_STORAGE", JSValue.boolean true)] JSValue.null
      = [("CACHE_TO_LOCAL_STORAGE", JSValue.boolean true)]
    ∧ getField
        (config [("CACHE_TO_LOCAL_STORAGE", JSValue.boolean true)]
          (.object [("CACHE_TO_LOCAL_STORAGE", JSValue.boolean false)]))
        "CACHE_TO_LOCAL_STORAGE" = some (JSValue.boolean false) :=
  ⟨(config_merges_objects_ignores_rest
      [("CACHE_TO_LOCAL_STORAGE", JSValue.boolean true)]).1 JSValue.null rfl,
   (config_merges_objects_ignores_rest
      [("CACHE_TO_LOCAL_STORAGE", JSValue.boolean true)]).2.2
      "CACHE_TO_LOCAL_STORAGE" (JSValue.boolean false)
      (fun h => JSValue.noConfusion h)⟩

theorem contains_filter_ne (fl : List String) (q : String) :
    (fl.filter (fun k => decide (k ≠ q))).contains q = false := by
  induction fl with
  | nil => rfl
  | cons a rest ih =>
      by_cases h : a = q
      · simp [List.filter_cons, h, ih]
      · simp [List.filter_cons, h, List.contains_cons, ih]
        exact fun hq => h hq.symm

/-- C2 counterexample: on a failed fetch the completion trace settles the
downstream callers at position 0 and clears the in-flight entry only at
position 1, so the clearing does not happen before the settlement as the
claim states. -/
theorem fetchQuote_clear_not_before_settle :
    decide
        ((fetchQuoteCompletionTrace "USD_EUR" (.failure "request failed")).indexOf
            (CompletionEvent.clearInFlight "USD_EUR")
          < (fetchQuoteCompletionTrace "USD_EUR"
              (.failure "request failed")).indexOf
            (CompletionEvent.settleDownstream "USD_EUR")) = false := by
  decide

/-- C2 amended: on completion (success or failure) the trace always ends
with the downstream settlement immediately followed by the clearing of the
in-flight entry — settlement first — and once the completion trace has run,
the entry for the key is falsy, so a caller arriving after completion
starts a new fetch. -/
theorem fetchQuote_clears_entry_after_settling (query : String)
    (outcome : FetchOutcome) (inFlight : List String) :
    (∃ pre, fetchQuoteCompletionTrace query outcome
        = pre ++ [.settleDownstream query, .clearInFlight query])
    ∧ (runTrace inFlight
        (fetchQuoteCompletionTrace query outcome)).contains query = false
    ∧ startsNewFetch
        (runTrace inFlight (fetchQuoteCompletionTrace query outcome)) query
        = true := by
  cases outcome with
  | success rate =>
      refine ⟨⟨[.cacheWrite query rate], rfl⟩, ?_, ?_⟩
      · simp [fetchQuoteCompletionTrace, runTrace, contains_filter_ne]
      · simp [startsNewFetch, fetchQuoteCompletionTrace, runTrace,
          contains_filter_ne]
  | failure err =>
      refine ⟨⟨[], rfl⟩, ?_, ?_⟩
      · simp [fetchQuoteCompletionTrace, runTrace, contains_filter_ne]
      · simp [startsNewFetch, fetchQuoteCompletionTrace, runTrace,
          contains_filter_ne]

theorem getRateConcurrent_joined_of_inFlight (c : Cache) (now validity : Int)
    (fromCurrency toCurrency : String) (pid : Nat) (n : Nat)
    (hc : lookupRate c (toQuery fromCurrency toCurrency) = none) :
    ∀ st : ArrivalSim,
      lookupInFlight st.inFlight (toQuery fromCurrency toCurrency) = some pid →
      getRateConcurrent c now validity fromCurrency toCurrency st n
        = { st with joined := st.joined ++ List.replicate n pid } := by
  induction n with
  | zero => intro st _; simp [getRateConcurrent]
  | succ m ih =>
      intro st hf
      have hv : isRateValid c (toQuery fromCurrency toCurrency) now validity
          = false := isRateValid_of_none _ _ _ _ hc
      have harr : getRateArrival c now validity st fromCurrency toCurrency
          = { st with joined := st.joined ++ [pid] } := by
        simp [getRateArrival, hv, fetchQuoteArrival, hf]
      rw [getRateConcurrent, harr,
        ih { st with joined := st.joined ++ [pid] } hf]
      simp [List.replicate_succ]

/-- C3: for an uncached pair with no fetch in flight, `n >= 1` concurrent
`getRate` callers cause exactly one remote invocation; every caller joins
the single promise created for the key, so settling the promises makes all
`n` callers observe one identical result — the same rate and the same
expired flag. -/
theorem getRate_concurrent_single_fetch (c : Cache) (now validity : Int)
    (fromCurrency toCurrency : String) (fl : List (String × Nat)) (nid : Nat)
    (n : Nat) (settlement : Nat → FetchOutcome) (c2 : Cache)
    (hc : lookupRate c (toQuery fromCurrency toCurrency) = none)
    (hf : lookupInFlight fl (toQuery fromCurrency toCurrency) = none)
    (hn : 1 ≤ n) :
    (getRateConcurrent c now validity fromCurrency toCurrency
        ⟨fl, nid, 0, []⟩ n).remoteCalls = 1
    ∧ (getRateConcurrent c now validity fromCurrency toCurrency
        ⟨fl, nid, 0, []⟩ n).joined = List.replicate n nid
    ∧ settleAll settlement c2 (toQuery fromCurrency toCurrency)
        (getRateConcurrent c now validity fromCurrency toCurrency
          ⟨fl, nid, 0, []⟩ n).joined
      = List.replicate n
          (getRateFetch c2 (toQuery fromCurrency toCurrency)
            (settlement nid)) := by
  obtain ⟨m, rfl⟩ : ∃ m, n = m + 1 := ⟨n - 1, by omega⟩
  have hv : isRateValid c (toQuery fromCurrency toCurrency) now validity
      = false := isRateValid_of_none _ _ _ _ hc
  have hstep : getRateArrival c now validity ⟨fl, nid, 0, []⟩
      fromCurrency toCurrency
      = ⟨(toQuery fromCurrency toCurrency, nid) :: fl, nid + 1, 1, [nid]⟩ := by
    simp [getRateArrival, hv, fetchQuoteArrival, hf]
  have hrest := getRateConcurrent_joined_of_inFlight c now validity
    fromCurrency toCurrency nid m hc
    ⟨(toQuery fromCurrency toCurrency, nid) :: fl, nid + 1, 1, [nid]⟩
    (by simp [lookupInFlight])
  rw [getRateConcurrent, hstep, hrest]
  refine ⟨rfl, ?_, ?_⟩
  · simp [List.replicate_succ]
  · simp [settleAll, List.replicate_succ]

/-- C3 witness: two concurrent callers for the uncached pair USD/EUR make a
single remote call, both join promise 0 and both observe the identical
successful result. -/
theorem getRate_concurrent_single_fetch_witness :
    (getRateConcurrent [] 0 0 "USD" "EUR" ⟨[], 0, 0, []⟩ 2).remoteCalls = 1
    ∧ (getRateConcurrent [] 0 0 "USD" "EUR" ⟨[], 0, 0, []⟩ 2).joined
      = List.replicate 2 0
    ∧ settleAll (fun _ => .success 5) [] (toQuery "USD" "EUR")
        (getRateConcurrent [] 0 0 "USD" "EUR" ⟨[], 0, 0, []⟩ 2).joined
      = List.replicate 2
          (getRateFetch [] (toQuery "USD" "EUR")
            ((fun _ => FetchOutcome.success 5) 0)) :=
  getRate_concurrent_single_fetch [] 0 0 "USD" "EUR" [] 0 2
    (fun _ => .success 5) [] (by decide) (by decide) (by decide)

end CurrencyConverter
